import Mathlib

/-!
Shallow embedding of the parallel multi-provider research orchestrator of the
dpsia-lambda repository: the query generator (`src/research/queries.ts`), the
three provider clients (`src/research/perplexity.ts`, `gemini.ts`, `grok.ts`),
the orchestrator `conductResearch` and the prompt formatter
`formatResearchForPrompt` (`src/research/orchestrator.ts`), together with the
shared data model (`src/research/types.ts`).

Modelling conventions:
- A settled JavaScript promise for one research task is a `SettledOutcome`
  (fulfilled with a `ResearchResult`, or rejected with the stringified reason).
  `Promise.allSettled` returns its outcomes index-aligned with the input task
  array, so the orchestrator body is a pure map over the task list.
- The external world of one HTTP call (fetch/abort/json parsing) is an
  `HttpOutcome`: the call threw (network error, timeout abort, malformed
  body), returned a non-ok response, or returned parsed JSON data.  Elapsed
  wall-clock durations (`Date.now() - start`) are explicit parameters.
- JavaScript `\s` / `trim()` / `toLowerCase()` are modelled by
  `Char.isWhitespace` / `String.trim` / `String.toLower`.
-/

/-- Outcome of one research task; mirrors `ResearchResult` in
`src/research/types.ts` (the absent `error` field is `none`). -/
structure ResearchResult where
  provider : String
  query : String
  content : String
  sources : List String
  success : Bool
  error : Option String
  durationMs : Nat
deriving DecidableEq

/-- Aggregated orchestration outcome; mirrors `AggregatedResults` in
`src/research/types.ts`. -/
structure AggregatedResults where
  results : List ResearchResult
  totalDurationMs : Nat
  providersUsed : List String
  allSources : List String
  successCount : Nat
  failureCount : Nat
deriving DecidableEq

/-! ## Query generator (`src/research/queries.ts`) -/

/-- The alternatives of the legal-entity-suffix regex
`/,?\s*(Inc\.|LLC|Ltd\.?|Corp\.?|GmbH|B\.V\.)$/i`, lowercased, with the
optional dots of `Ltd\.?` and `Corp\.?` expanded. -/
def legalSuffixAlts : List String :=
  ["inc.", "llc", "ltd.", "ltd", "corp.", "corp", "gmbh", "b.v."]

/-- Lowercase a character list (model of the `/i` regex flag). -/
def lowerChars (cs : List Char) : List Char :=
  cs.map Char.toLower

/-- Does `\s*(Inc\.|...)$` match the whole character list `cs`?  Every
alternative begins with a non-whitespace character, so the decomposition into
`\s*` and the alternative is exactly `dropWhile isWhitespace`. -/
def suffixTailMatch (cs : List Char) : Bool :=
  legalSuffixAlts.any (fun alt => lowerChars (cs.dropWhile Char.isWhitespace) == alt.data)

/-- Does `,?\s*(Inc\.|...)$` match the whole character list `cs`? -/
def suffixMatchAt (cs : List Char) : Bool :=
  suffixTailMatch cs ||
    (match cs with
     | ',' :: rest => suffixTailMatch rest
     | _ => false)

/-- `String.replace` with the end-anchored suffix regex: remove the terminal
segment starting at the leftmost position where the pattern matches. -/
def stripFrom : List Char → List Char
  | [] => []
  | c :: rest => if suffixMatchAt (c :: rest) then [] else c :: stripFrom rest

/-- `trim()` modelled on the character list: drop whitespace from both
ends. -/
def trimChars (cs : List Char) : List Char :=
  ((cs.dropWhile Char.isWhitespace).reverse.dropWhile Char.isWhitespace).reverse

/-- `vendorName.replace(/,?\s*(Inc\.|LLC|Ltd\.?|Corp\.?|GmbH|B\.V\.)$/i, '').trim()`. -/
def stripVendorName (vendorName : String) : String :=
  String.mk (trimChars (stripFrom vendorName.data))

/-- `const serviceContext = servicesUsed ? ` + servicesUsed : ''` — note the
JavaScript truthiness test: both `undefined` and `''` yield the empty
context. -/
def serviceContextOf : Option String → String
  | none => ""
  | some s => if s.isEmpty then "" else " " ++ s

/-- `DPSIAQueries` of `src/research/queries.ts` (each field is a
three-element tuple in the source; modelled as a list). -/
structure DPSIAQueries where
  perplexity : List String
  gemini : List String
  grok : List String
deriving DecidableEq

/-- `generateQueries` of `src/research/queries.ts`. -/
def generateQueries (vendorName : String) (servicesUsed : Option String) : DPSIAQueries :=
  let shortName := stripVendorName vendorName
  let serviceContext := serviceContextOf servicesUsed
  { perplexity := [
      shortName ++ " security certifications ISO 27001 SOC 2 Type II 2025 2026",
      shortName ++ " data breach incidents security vulnerabilities CVE history",
      shortName ++ " GDPR compliance data processing agreement privacy policy" ++ serviceContext]
    gemini := [
      shortName ++ " security posture assessment encryption access controls infrastructure. Analyse their security architecture, encryption standards, and access control mechanisms.",
      shortName ++ " vendor risk compliance status regulatory actions enforcement. Evaluate their compliance posture across ISO 27001, SOC 2, GDPR, and any regulatory enforcement actions.",
      shortName ++ " service availability SLA disaster recovery redundancy architecture" ++ serviceContext ++ ". Assess their availability guarantees, redundancy, and disaster recovery capabilities."]
    grok := [
      shortName ++ " security incidents criticism concerns vulnerabilities 2024 2025 2026. What are the most significant security concerns, incidents, or criticisms? Be thorough and unbiased.",
      shortName ++ " enforcement actions fines regulatory investigations GDPR ICO FTC. Has this company faced any regulatory enforcement, fines, or investigations?",
      shortName ++ " alternatives comparison security weaknesses limitations" ++ serviceContext ++ ". What are the known security weaknesses or limitations compared to alternatives?"] }

/-- All nine queries of a query batch, provider-major. -/
def allQueriesOf (qb : DPSIAQueries) : List String :=
  qb.perplexity ++ qb.gemini ++ qb.grok

/-! ## Orchestrator core (`src/research/orchestrator.ts`, `conductResearch`) -/

/-- A settled promise of one `provider.search(query, timeoutMs)` call, as seen
by `Promise.allSettled`: fulfilled with the client's `ResearchResult`, or
rejected (the reason already converted by
`outcome.reason instanceof Error ? outcome.reason.message : String(outcome.reason)`). -/
inductive SettledOutcome where
  | fulfilled (value : ResearchResult)
  | rejected (reason : String)
deriving DecidableEq

/-- The duck-typed `ResearchProvider` capability of `types.ts`: a name and a
`search` behaviour, the latter giving the settled outcome of the returned
promise for a query and timeout. -/
structure Provider where
  name : String
  search : String → Nat → SettledOutcome

/-- The nested task-building loops of `conductResearch`: for each configured
provider, one task per query, pushed in order (provider-major, query-minor). -/
def buildTasks : List (Provider × List String) → List (Provider × String)
  | [] => []
  | (p, qs) :: rest => qs.map (fun q => (p, q)) ++ buildTasks rest

/-- The collection step of `conductResearch` for one task: a fulfilled outcome
is taken as-is; a rejected outcome is synthesized into a failed
`ResearchResult` for the dispatching task (`durationMs` is the
`Date.now() - start` at collection time). -/
def settleTask (timeoutMs collectElapsed : Nat) (task : Provider × String) : ResearchResult :=
  match task.1.search task.2 timeoutMs with
  | .fulfilled value => value
  | .rejected reason =>
      { provider := task.1.name
        query := task.2
        content := ""
        sources := []
        success := false
        error := some reason
        durationMs := collectElapsed }

/-- The normalisation applied to a source citation before the uniqueness
test: `src.trim().toLowerCase()` (trim and lowercase modelled character-wise). -/
def normalise (src : String) : String :=
  String.mk (lowerChars (trimChars src.data))

/-- Membership in the `seen` set of normalised sources (`Set.has`). -/
def seenHas : List String → String → Bool
  | [], _ => false
  | x :: xs, a => if x = a then true else seenHas xs a

/-- One iteration of the source-deduplication loop body: state is
(`seen` normalised keys, `allSources` accumulator). -/
def dedupeStep (st : List String × List String) (src : String) : List String × List String :=
  let normalised := normalise src
  if seenHas st.1 normalised then st else (normalised :: st.1, st.2 ++ [src])

/-- The double loop `for (const r of results) for (const src of r.sources)`
building `allSources`. -/
def collectAllSources (results : List ResearchResult) : List String :=
  (results.foldl (fun st r => r.sources.foldl dedupeStep st) ([], [])).2

/-- `[...new Set(xs)]`: JavaScript `Set` iterates in insertion order, so this
keeps the first occurrence of each element. -/
def dedupKeepFirst (xs : List String) : List String :=
  xs.foldl (fun acc x => if seenHas acc x then acc else acc ++ [x]) []

/-- The body of `conductResearch` from the task-building loop onward,
parameterized by the configured providers with their query lists (the source
builds that array from the three concrete clients).  `collectElapsed` and
`totalElapsed` model the two `Date.now() - start` readings. -/
def conductResearchWith (providerQueries : List (Provider × List String))
    (timeoutMs collectElapsed totalElapsed : Nat) : AggregatedResults :=
  let tasks := buildTasks providerQueries
  let results := tasks.map (settleTask timeoutMs collectElapsed)
  { results := results
    totalDurationMs := totalElapsed
    providersUsed := dedupKeepFirst ((results.filter (fun r => r.success)).map (fun r => r.provider))
    allSources := collectAllSources results
    successCount := (results.filter (fun r => r.success)).length
    failureCount := (results.filter (fun r => !r.success)).length }

/-! ## Provider clients (`perplexity.ts`, `gemini.ts`, `grok.ts`) -/

/-- The external world of one HTTP call, as observed by a client's
try/catch: the call (fetch, abort-on-timeout, `response.text()`,
`response.json()`) threw with some message; or the response was non-ok
(non-2xx) with an error body; or it was ok with parsed JSON data. -/
inductive HttpOutcome (A : Type) where
  | thrown (message : String)
  | notOk (status : Nat) (errorText : String)
  | ok (data : A)
deriving DecidableEq

/-- `{ content?: string }` of a chat-completion message. -/
structure ChatMessage where
  content : Option String
deriving DecidableEq

/-- `{ message?: { content?: string } }` of a chat-completion choice. -/
structure ChatChoice where
  message : Option ChatMessage
deriving DecidableEq

/-- The response shape parsed by `PerplexityProvider.search`:
`{ choices?: ..., citations?: string[] }`. -/
structure PerplexityData where
  choices : Option (List ChatChoice)
  citations : Option (List String)
deriving DecidableEq

/-- The response shape parsed by `GrokProvider.search`: `{ choices?: ... }`. -/
structure ChatData where
  choices : Option (List ChatChoice)
deriving DecidableEq

/-- `{ text?: string }` of a Gemini part. -/
structure GeminiPart where
  text : Option String
deriving DecidableEq

/-- `{ parts?: ... }` of a Gemini content tree. -/
structure GeminiContent where
  parts : Option (List GeminiPart)
deriving DecidableEq

/-- `{ content?: ... }` of a Gemini candidate. -/
structure GeminiCandidate where
  content : Option GeminiContent
deriving DecidableEq

/-- The response shape parsed by `GeminiProvider.search`:
`{ candidates?: ... }`. -/
structure GeminiData where
  candidates : Option (List GeminiCandidate)
deriving DecidableEq

/-- `data.choices?.[0]?.message?.content ?? ''`. -/
def chatContent (choices : Option (List ChatChoice)) : String :=
  match choices with
  | some (c :: _) =>
      match c.message with
      | some m => m.content.getD ""
      | none => ""
  | _ => ""

/-- `data.candidates?.[0]?.content?.parts?.[0]?.text ?? ''`. -/
def geminiText (candidates : Option (List GeminiCandidate)) : String :=
  match candidates with
  | some (c :: _) =>
      match c.content with
      | some ct =>
          match ct.parts with
          | some (p :: _) => p.text.getD ""
          | _ => ""
      | none => ""
  | _ => ""

/-- `PerplexityProvider.search` (`src/research/perplexity.ts`): total by
construction — the whole body sits in a try/catch, so every `HttpOutcome`
maps to a well-formed `ResearchResult` and nothing escapes to the caller. -/
def PerplexityProvider.search (apiKey query : String) (timeoutMs : Nat)
    (net : HttpOutcome PerplexityData) (elapsed : Nat) : ResearchResult :=
  match net with
  | .thrown message =>
      { provider := "Perplexity", query := query, content := "", sources := []
        success := false, error := some message, durationMs := elapsed }
  | .notOk status errorText =>
      { provider := "Perplexity", query := query, content := "", sources := []
        success := false, error := some ("HTTP " ++ toString status ++ ": " ++ errorText)
        durationMs := elapsed }
  | .ok data =>
      { provider := "Perplexity", query := query
        content := chatContent data.choices
        sources := data.citations.getD []
        success := true, error := none, durationMs := elapsed }

/-- `GrokProvider.search` (`src/research/grok.ts`): identical contract, no
citations — `sources` is `[]` in every branch. -/
def GrokProvider.search (apiKey query : String) (timeoutMs : Nat)
    (net : HttpOutcome ChatData) (elapsed : Nat) : ResearchResult :=
  match net with
  | .thrown message =>
      { provider := "Grok", query := query, content := "", sources := []
        success := false, error := some message, durationMs := elapsed }
  | .notOk status errorText =>
      { provider := "Grok", query := query, content := "", sources := []
        success := false, error := some ("HTTP " ++ toString status ++ ": " ++ errorText)
        durationMs := elapsed }
  | .ok data =>
      { provider := "Grok", query := query
        content := chatContent data.choices
        sources := []
        success := true, error := none, durationMs := elapsed }

/-- `GeminiProvider.search` (`src/research/gemini.ts`): content from the
candidates/parts tree, no citations — `sources` is `[]` in every branch. -/
def GeminiProvider.search (apiKey query : String) (timeoutMs : Nat)
    (net : HttpOutcome GeminiData) (elapsed : Nat) : ResearchResult :=
  match net with
  | .thrown message =>
      { provider := "Gemini", query := query, content := "", sources := []
        success := false, error := some message, durationMs := elapsed }
  | .notOk status errorText =>
      { provider := "Gemini", query := query, content := "", sources := []
        success := false, error := some ("HTTP " ++ toString status ++ ": " ++ errorText)
        durationMs := elapsed }
  | .ok data =>
      { provider := "Gemini", query := query
        content := geminiText data.candidates
        sources := []
        success := true, error := none, durationMs := elapsed }

/-! ## Concrete orchestrator wiring -/

/-- `ResearchConfig` of `orchestrator.ts`. -/
structure ResearchConfig where
  perplexityApiKey : String
  googleApiKey : String
  xaiApiKey : String
  timeoutMs : Option Nat

/-- The external network world of one orchestration run: for each provider,
the HTTP outcome and the elapsed duration of the call issued for a given
query string. -/
structure Network where
  perplexity : String → HttpOutcome PerplexityData
  perplexityMs : String → Nat
  gemini : String → HttpOutcome GeminiData
  geminiMs : String → Nat
  grok : String → HttpOutcome ChatData
  grokMs : String → Nat

/-- The `PerplexityProvider` instance as a `Provider` capability.  The client
catches everything internally, so its promise always fulfills. -/
def perplexityClient (net : Network) (apiKey : String) : Provider :=
  { name := "Perplexity"
    search := fun query timeoutMs =>
      .fulfilled (PerplexityProvider.search apiKey query timeoutMs
        (net.perplexity query) (net.perplexityMs query)) }

/-- The `GeminiProvider` instance as a `Provider` capability. -/
def geminiClient (net : Network) (apiKey : String) : Provider :=
  { name := "Gemini"
    search := fun query timeoutMs =>
      .fulfilled (GeminiProvider.search apiKey query timeoutMs
        (net.gemini query) (net.geminiMs query)) }

/-- The `GrokProvider` instance as a `Provider` capability. -/
def grokClient (net : Network) (apiKey : String) : Provider :=
  { name := "Grok"
    search := fun query timeoutMs =>
      .fulfilled (GrokProvider.search apiKey query timeoutMs
        (net.grok query) (net.grokMs query)) }

/-- The `providers` array literal of `conductResearch`. -/
def providersOf (net : Network) (config : ResearchConfig) (queries : DPSIAQueries) :
    List (Provider × List String) :=
  [ (perplexityClient net config.perplexityApiKey, queries.perplexity),
    (geminiClient net config.googleApiKey, queries.gemini),
    (grokClient net config.xaiApiKey, queries.grok) ]

/-- `conductResearch` of `src/research/orchestrator.ts`: default timeout
`90_000`, query generation, then the parallel dispatch/collect/aggregate body
(`conductResearchWith`) over the three concrete clients. -/
def conductResearch (net : Network) (vendorName : String) (config : ResearchConfig)
    (servicesUsed : Option String) (collectElapsed totalElapsed : Nat) : AggregatedResults :=
  let timeoutMs := config.timeoutMs.getD 90000
  let queries := generateQueries vendorName servicesUsed
  conductResearchWith (providersOf net config queries) timeoutMs collectElapsed totalElapsed

/-! ## Prompt formatter (`formatResearchForPrompt`) -/

/-- Insert one result into the `byProvider` map: JavaScript `Map` keeps
insertion order of keys, and the result is appended to its provider's list. -/
def addTo : List (String × List ResearchResult) → ResearchResult →
    List (String × List ResearchResult)
  | [], r => [(r.provider, [r])]
  | (k, rs) :: rest, r =>
      if k = r.provider then (k, rs ++ [r]) :: rest else (k, rs) :: addTo rest r

/-- The `byProvider` grouping loop of `formatResearchForPrompt`. -/
def byProviderOf (results : List ResearchResult) : List (String × List ResearchResult) :=
  results.foldl addTo []

/-- The provider-label lookup (unknown providers fall back to the raw name). -/
def labelOf (provider : String) : String :=
  if provider = "Perplexity" then "Perplexity (Web Search with Citations)"
  else if provider = "Gemini" then "Gemini (Multi-Perspective Analysis)"
  else if provider = "Grok" then "Grok (Contrarian Analysis)"
  else provider

/-- Template interpolation `*Failed: ${r.error}*`: an absent field prints as
`undefined`. -/
def optErrString : Option String → String
  | some e => e
  | none => "undefined"

/-- The sections pushed for one result inside its provider group. -/
def resultSections (r : ResearchResult) : List String :=
  if r.success && !r.content.isEmpty then
    ["**Query:** " ++ r.query ++ "\n", r.content]
      ++ (if r.sources.length > 0 then
            "\n**Sources:**" :: r.sources.map (fun src => "- " ++ src)
          else [])
      ++ [""]
  else if !r.success then
    ["**Query:** " ++ r.query, "*Failed: " ++ optErrString r.error ++ "*\n"]
  else []

/-- The sections pushed for all results of one provider group, in order. -/
def sectionsOfResults : List ResearchResult → List String
  | [] => []
  | r :: rest => resultSections r ++ sectionsOfResults rest

/-- The sections pushed for the whole `byProvider` map: a labelled header per
provider, then that provider's result sections. -/
def providerSections : List (String × List ResearchResult) → List String
  | [] => []
  | (provider, results) :: rest =>
      ("### " ++ labelOf provider ++ "\n") ::
        (sectionsOfResults results ++ providerSections rest)

/-- `formatResearchForPrompt` of `src/research/orchestrator.ts`:
`sections.join('\n')`. -/
def formatResearchForPrompt (aggregated : AggregatedResults) : String :=
  String.intercalate "\n" (providerSections (byProviderOf aggregated.results))

/-! ## Specification-side helpers -/

/-- The flattened stream of source citations, in dispatch order over the
results and in order within each result. -/
def sourcesStream : List ResearchResult → List String
  | [] => []
  | r :: rest => r.sources ++ sourcesStream rest

/-- Deduplication continued from an already-seen set of normalised keys:
skip an element whose normalisation was seen, otherwise keep it (original,
non-normalised) and record its normalisation. -/
def specDedupFrom : List String → List String → List String
  | [], _ => []
  | x :: xs, seen =>
      if seenHas seen (normalise x) then specDedupFrom xs seen
      else x :: specDedupFrom xs (normalise x :: seen)

/-- Specification form of the deduplication policy: keep each element whose
normalisation has not occurred earlier in the stream — i.e. the
first-encountered original of every normalisation class, in first-seen
order. -/
def keepFirstByNorm : List String → List String
  | [] => []
  | x :: xs => x :: keepFirstByNorm (xs.filter (fun y => !(normalise y == normalise x)))
termination_by l => l.length
decreasing_by
  simp only [List.length_cons]
  exact Nat.lt_succ_of_le (List.length_filter_le _ _)

/-- Does the character list `hay` start with `needle`? -/
def listStartsWith : List Char → List Char → Bool
  | [], _ => true
  | _ :: _, [] => false
  | a :: as, b :: bs => a == b && listStartsWith as bs

/-- Does the character list `hay` contain `needle` as a contiguous
subsequence? -/
def listContainsSeq (needle : List Char) : List Char → Bool
  | [] => needle.isEmpty
  | c :: rest => listStartsWith needle (c :: rest) || listContainsSeq needle rest

/-- Substring test on strings. -/
def containsText (hay needle : String) : Bool :=
  listContainsSeq needle.data hay.data

/-- Substring test through an optional string (`none` fails). -/
def optContains (hay : Option String) (needle : String) : Bool :=
  match hay with
  | some h => containsText h needle
  | none => false

/-- Positional correspondence between a result list and a task list: same
length, and the i-th result carries the i-th task's provider name and query
string. -/
def resultsMatchTasks : List ResearchResult → List (Provider × String) → Bool
  | [], [] => true
  | r :: rs, t :: ts =>
      r.provider == t.1.name && r.query == t.2 && resultsMatchTasks rs ts
  | _, _ => false

/-- A task's settled outcome counts as failed when its promise rejected, or
fulfilled with a result whose success flag is false. -/
def outcomeFailed : SettledOutcome → Bool
  | .fulfilled value => !value.success
  | .rejected _ => true

/-- Every task of the configured batch fails. -/
def allTasksFail (providerQueries : List (Provider × List String)) (timeoutMs : Nat) : Bool :=
  (buildTasks providerQueries).all (fun task => outcomeFailed (task.1.search task.2 timeoutMs))

/-! ## General list lemmas for the orchestrator -/

theorem length_filter_add_length_filter_not (l : List ResearchResult)
    (p : ResearchResult → Bool) :
    (l.filter p).length + (l.filter (fun r => !p r)).length = l.length := by
  induction l with
  | nil => rfl
  | cons r rest ih =>
      cases h : p r with
      | true =>
          rw [List.filter_cons_of_pos (by simp [h]), List.filter_cons_of_neg (by simp [h])]
          simp only [List.length_cons, Nat.succ_add]
          omega
      | false =>
          rw [List.filter_cons_of_neg (by simp [h]), List.filter_cons_of_pos (by simp [h])]
          simp only [List.length_cons, Nat.add_succ]
          omega

theorem filter_eq_nil_of_all_false {p : ResearchResult → Bool} :
    ∀ (l : List ResearchResult), (∀ r ∈ l, p r = false) → l.filter p = [] := by
  intro l
  induction l with
  | nil => intro _; rfl
  | cons r rest ih =>
      intro h
      rw [List.filter_cons_of_neg (by simp [h r (List.mem_cons_self r rest)])]
      exact ih (fun x hx => h x (List.mem_cons_of_mem r hx))

theorem getQ_append_left {α : Type} (l₁ l₂ : List α) (i : Nat) (h : i < l₁.length) :
    (l₁ ++ l₂).get? i = l₁.get? i := by
  induction l₁ generalizing i with
  | nil => simp at h
  | cons a l ih =>
      cases i with
      | zero => rfl
      | succ n =>
          simp only [List.cons_append, List.get?]
          exact ih n (Nat.lt_of_succ_lt_succ h)

theorem getQ_append_right {α : Type} (l₁ l₂ : List α) (j : Nat) :
    (l₁ ++ l₂).get? (l₁.length + j) = l₂.get? j := by
  induction l₁ with
  | nil => simp
  | cons a l ih =>
      have hlen : (a :: l).length + j = (l.length + j) + 1 := by
        simp only [List.length_cons]
        omega
      rw [hlen]
      exact ih

theorem getQ_map {α β : Type} (f : α → β) (l : List α) (i : Nat) :
    (l.map f).get? i = (l.get? i).map f := by
  induction l generalizing i with
  | nil => cases i <;> rfl
  | cons a l ih => cases i with
      | zero => rfl
      | succ n => simpa using ih n

theorem getQ_lt_length {α : Type} {l : List α} {i : Nat} {a : α}
    (h : l.get? i = some a) : i < l.length := by
  induction l generalizing i with
  | nil => cases i <;> simp [List.get?] at h
  | cons x xs ih =>
      cases i with
      | zero => simp
      | succ n =>
          simp only [List.get?] at h
          exact Nat.succ_lt_succ (ih h)

theorem getQ_mem {α : Type} {l : List α} {i : Nat} {a : α}
    (h : l.get? i = some a) : a ∈ l := by
  induction l generalizing i with
  | nil => cases i <;> simp [List.get?] at h
  | cons x xs ih =>
      cases i with
      | zero =>
          simp only [List.get?] at h
          injection h with h2
          subst h2
          exact List.mem_cons_self x xs
      | succ n =>
          simp only [List.get?] at h
          exact List.mem_cons_of_mem x (ih h)

/-! ## Deduplication lemmas -/

theorem seenHas_swap (a b : String) (s : List String) (x : String) :
    seenHas (a :: b :: s) x = seenHas (b :: a :: s) x := by
  by_cases ha : a = x <;> by_cases hb : b = x <;> simp [seenHas, ha, hb]

theorem nested_foldl_eq_stream (results : List ResearchResult)
    (st : List String × List String) :
    results.foldl (fun st r => r.sources.foldl dedupeStep st) st
      = (sourcesStream results).foldl dedupeStep st := by
  induction results generalizing st with
  | nil => rfl
  | cons r rest ih =>
      simp only [List.foldl_cons, sourcesStream, List.foldl_append]
      exact ih _

theorem foldl_dedupe_spec :
    ∀ (l seen acc : List String),
      (l.foldl dedupeStep (seen, acc)).2 = acc ++ specDedupFrom l seen := by
  intro l
  induction l with
  | nil => intro seen acc; simp [specDedupFrom]
  | cons x xs ih =>
      intro seen acc
      simp only [List.foldl_cons]
      cases h : seenHas seen (normalise x) with
      | true =>
          have hstep : dedupeStep (seen, acc) x = (seen, acc) := by
            simp [dedupeStep, h]
          rw [hstep, ih]
          simp [specDedupFrom, h]
      | false =>
          have hstep : dedupeStep (seen, acc) x = (normalise x :: seen, acc ++ [x]) := by
            simp [dedupeStep, h]
          rw [hstep, ih]
          simp [specDedupFrom, h]

theorem specDedupFrom_congr :
    ∀ (l s1 s2 : List String), (∀ a, seenHas s1 a = seenHas s2 a) →
      specDedupFrom l s1 = specDedupFrom l s2 := by
  intro l
  induction l with
  | nil => intro s1 s2 _; rfl
  | cons x xs ih =>
      intro s1 s2 hss
      simp only [specDedupFrom, hss (normalise x)]
      cases h : seenHas s2 (normalise x) with
      | true =>
          rw [if_pos rfl, if_pos rfl]
          exact ih s1 s2 hss
      | false =>
          rw [if_neg Bool.false_ne_true, if_neg Bool.false_ne_true]
          congr 1
          exact ih _ _ (fun a => by
            by_cases hx : normalise x = a <;> simp [seenHas, hx, hss a])

theorem specDedupFrom_cons_seen :
    ∀ (xs : List String) (n : String) (seen : List String),
      specDedupFrom xs (n :: seen)
        = specDedupFrom (xs.filter (fun y => !(normalise y == n))) seen := by
  intro xs
  induction xs with
  | nil => intro n seen; rfl
  | cons y ys ih =>
      intro n seen
      cases hy : normalise y == n with
      | true =>
          have hy' : normalise y = n := by simpa using hy
          have hseen : seenHas (n :: seen) (normalise y) = true := by
            simp [seenHas, hy']
          rw [List.filter_cons_of_neg (by simp [hy])]
          simp only [specDedupFrom]
          rw [if_pos hseen]
          exact ih n seen
      | false =>
          have hy' : ¬ normalise y = n := by simpa using hy
          have hne : ¬ n = normalise y := fun hh => hy' hh.symm
          have hseen : seenHas (n :: seen) (normalise y) = seenHas seen (normalise y) := by
            simp [seenHas, hne]
          rw [List.filter_cons_of_pos (by simp [hy])]
          simp only [specDedupFrom, hseen]
          cases hs : seenHas seen (normalise y) with
          | true =>
              rw [if_pos rfl, if_pos rfl]
              exact ih n seen
          | false =>
              rw [if_neg Bool.false_ne_true, if_neg Bool.false_ne_true]
              congr 1
              calc specDedupFrom ys (normalise y :: n :: seen)
                  = specDedupFrom ys (n :: normalise y :: seen) :=
                    specDedupFrom_congr ys _ _ (seenHas_swap _ _ _)
                _ = specDedupFrom (ys.filter (fun z => !(normalise z == n)))
                      (normalise y :: seen) := ih n (normalise y :: seen)

theorem specDedupFrom_nil_eq_keepFirst :
    ∀ (fuel : Nat) (l : List String), l.length ≤ fuel →
      specDedupFrom l [] = keepFirstByNorm l := by
  intro fuel
  induction fuel with
  | zero =>
      intro l h
      have hl : l = [] := List.length_eq_zero.mp (Nat.le_zero.mp h)
      subst hl
      rw [keepFirstByNorm]
      rfl
  | succ n ih =>
      intro l h
      match l with
      | [] =>
          rw [keepFirstByNorm]
          rfl
      | x :: xs =>
          rw [keepFirstByNorm]
          simp only [specDedupFrom]
          rw [if_neg (show ¬ (seenHas [] (normalise x) = true) by simp [seenHas])]
          congr 1
          rw [specDedupFrom_cons_seen xs (normalise x) []]
          exact ih _ (le_trans (List.length_filter_le _ _)
            (Nat.le_of_succ_le_succ (by simpa using h)))

theorem collectAllSources_eq_keepFirst (results : List ResearchResult) :
    collectAllSources results = keepFirstByNorm (sourcesStream results) := by
  unfold collectAllSources
  rw [nested_foldl_eq_stream, foldl_dedupe_spec]
  simp only [List.nil_append]
  exact specDedupFrom_nil_eq_keepFirst (sourcesStream results).length _ le_rfl

theorem keepFirst_sublist :
    ∀ (fuel : Nat) (l : List String), l.length ≤ fuel → List.Sublist (keepFirstByNorm l) l := by
  intro fuel
  induction fuel with
  | zero =>
      intro l h
      have hl : l = [] := List.length_eq_zero.mp (Nat.le_zero.mp h)
      subst hl
      rw [keepFirstByNorm]
  | succ n ih =>
      intro l h
      match l with
      | [] =>
          rw [keepFirstByNorm]
      | x :: xs =>
          rw [keepFirstByNorm]
          refine List.Sublist.cons₂ x (List.Sublist.trans ?_
            (@List.filter_sublist String (fun y => !(normalise y == normalise x)) xs))
          exact ih _ (le_trans (List.length_filter_le _ _)
            (Nat.le_of_succ_le_succ (by simpa using h)))

theorem keepFirst_pairwise :
    ∀ (fuel : Nat) (l : List String), l.length ≤ fuel →
      (keepFirstByNorm l).Pairwise (fun a b => normalise a ≠ normalise b) := by
  intro fuel
  induction fuel with
  | zero =>
      intro l h
      have hl : l = [] := List.length_eq_zero.mp (Nat.le_zero.mp h)
      subst hl
      simp [keepFirstByNorm]
  | succ n ih =>
      intro l h
      match l with
      | [] => simp [keepFirstByNorm]
      | x :: xs =>
          rw [keepFirstByNorm]
          have hlen : (xs.filter (fun y => !(normalise y == normalise x))).length ≤ n :=
            le_trans (List.length_filter_le _ _)
              (Nat.le_of_succ_le_succ (by simpa using h))
          refine List.Pairwise.cons ?_ (ih _ hlen)
          intro b hb
          have hb' : b ∈ xs.filter (fun y => !(normalise y == normalise x)) :=
            (keepFirst_sublist n _ hlen).subset hb
          have hcond := (List.mem_filter.mp hb').2
          intro hEq
          simp [← hEq] at hcond

theorem mem_sourcesStream {s : String} :
    ∀ (results : List ResearchResult), s ∈ sourcesStream results →
      ∃ r, r ∈ results ∧ s ∈ r.sources := by
  intro results
  induction results with
  | nil => intro h; simp [sourcesStream] at h
  | cons r rest ih =>
      intro h
      simp only [sourcesStream, List.mem_append] at h
      cases h with
      | inl h => exact ⟨r, List.mem_cons_self r rest, h⟩
      | inr h =>
          obtain ⟨r2, hr2, hs⟩ := ih h
          exact ⟨r2, List.mem_cons_of_mem r hr2, hs⟩

/-! ## Orchestrator structural lemmas -/

theorem conductResearchWith_results (pqs : List (Provider × List String))
    (timeoutMs collectElapsed totalElapsed : Nat) :
    (conductResearchWith pqs timeoutMs collectElapsed totalElapsed).results
      = (buildTasks pqs).map (settleTask timeoutMs collectElapsed) := rfl

theorem buildTasks_length_uniform :
    ∀ (pqs : List (Provider × List String)) (Q : Nat),
      (∀ pq ∈ pqs, pq.2.length = Q) → (buildTasks pqs).length = pqs.length * Q := by
  intro pqs Q
  induction pqs with
  | nil => intro _; simp [buildTasks]
  | cons hd rest ih =>
      intro h
      obtain ⟨p, qs⟩ := hd
      have h1 : qs.length = Q := h (p, qs) (List.mem_cons_self _ _)
      have h2 := ih (fun x hx => h x (List.mem_cons_of_mem _ hx))
      simp only [buildTasks, List.length_append, List.length_map, List.length_cons]
      rw [h1, h2, Nat.succ_mul]
      omega

theorem buildTasks_get_uniform :
    ∀ (pqs : List (Provider × List String)) (Q : Nat),
      (∀ pq ∈ pqs, pq.2.length = Q) →
      ∀ (i j : Nat) (pq : Provider × List String) (q : String),
        pqs.get? i = some pq → pq.2.get? j = some q →
        (buildTasks pqs).get? (i * Q + j) = some (pq.1, q) := by
  intro pqs Q
  induction pqs with
  | nil =>
      intro _ i j pq q hi _
      cases i <;> simp [List.get?] at hi
  | cons hd rest ih =>
      intro h i j pq q hi hj
      obtain ⟨p, qs⟩ := hd
      cases i with
      | zero =>
          simp only [List.get?] at hi
          injection hi with hi2
          subst hi2
          simp only [buildTasks, Nat.zero_mul, Nat.zero_add]
          have hjlen : j < qs.length := getQ_lt_length hj
          rw [getQ_append_left _ _ j (by simpa [List.length_map] using hjlen)]
          rw [getQ_map]
          rw [show ((p, qs).2 : List String) = qs from rfl] at hj
          rw [hj]
          rfl
      | succ n =>
          simp only [List.get?] at hi
          have hlen : qs.length = Q := h (p, qs) (List.mem_cons_self _ _)
          have hidx : (n + 1) * Q + j = (qs.map (fun q => (p, q))).length + (n * Q + j) := by
            simp only [List.length_map, hlen, Nat.succ_mul]
            omega
          simp only [buildTasks]
          rw [hidx, getQ_append_right]
          exact ih (fun x hx => h x (List.mem_cons_of_mem _ hx)) n j pq q hi hj

theorem mem_buildTasks :
    ∀ (pqs : List (Provider × List String)) (t : Provider × String),
      t ∈ buildTasks pqs → ∃ pq, pq ∈ pqs ∧ t.1 = pq.1 ∧ t.2 ∈ pq.2 := by
  intro pqs
  induction pqs with
  | nil => intro t ht; simp [buildTasks] at ht
  | cons hd rest ih =>
      intro t ht
      obtain ⟨p, qs⟩ := hd
      simp only [buildTasks, List.mem_append] at ht
      cases ht with
      | inl hmem =>
          obtain ⟨q, hq, hEq⟩ := List.mem_map.mp hmem
          refine ⟨(p, qs), List.mem_cons_self _ _, ?_, ?_⟩
          · rw [← hEq]
          · rw [← hEq]; exact hq
      | inr hmem =>
          obtain ⟨pq, hpq, h1, h2⟩ := ih t hmem
          exact ⟨pq, List.mem_cons_of_mem _ hpq, h1, h2⟩

/-! ## Claim theorems -/

/-- C3: For every AggregatedResults value returned by conductResearch,
successCount + failureCount equals the number of results, each count is
derived by filtering the results on the success flag (never tracked
independently), and the number of results equals the number of dispatched
tasks — so the sum never exceeds the task count. -/
theorem claim3_counts_invariant :
    ∀ (net : Network) (vendorName : String) (config : ResearchConfig)
      (servicesUsed : Option String) (collectElapsed totalElapsed : Nat),
      let agg := conductResearch net vendorName config servicesUsed collectElapsed totalElapsed
      agg.successCount + agg.failureCount = agg.results.length ∧
      agg.successCount = (agg.results.filter (fun r => r.success)).length ∧
      agg.failureCount = (agg.results.filter (fun r => !r.success)).length ∧
      agg.results.length
        = (buildTasks (providersOf net config (generateQueries vendorName servicesUsed))).length := by
  intro net vendorName config servicesUsed collectElapsed totalElapsed
  refine ⟨length_filter_add_length_filter_not _ _, rfl, rfl, ?_⟩
  simp [conductResearch, conductResearchWith]

/-- C1: If every task of the configured batch fails — its settled outcome is
either a rejection or a fulfilled result with success flag false — the
orchestrator body still produces a fully-formed AggregatedResults (it is a
total function, mirroring Promise.allSettled never rejecting) in which
successCount is 0 and failureCount equals the number of results, which is
the full task count. -/
theorem claim1_whole_batch_failure :
    ∀ (pqs : List (Provider × List String)) (timeoutMs collectElapsed totalElapsed : Nat),
      allTasksFail pqs timeoutMs = true →
      (conductResearchWith pqs timeoutMs collectElapsed totalElapsed).successCount = 0 ∧
      (conductResearchWith pqs timeoutMs collectElapsed totalElapsed).failureCount
        = (conductResearchWith pqs timeoutMs collectElapsed totalElapsed).results.length ∧
      (conductResearchWith pqs timeoutMs collectElapsed totalElapsed).results.length
        = (buildTasks pqs).length := by
  intro pqs t c e hfail
  have hall : ∀ task ∈ buildTasks pqs, outcomeFailed (task.1.search task.2 t) = true := by
    intro task htask
    have := List.all_eq_true.mp hfail task htask
    simpa using this
  have hres : ∀ r ∈ (buildTasks pqs).map (settleTask t c), r.success = false := by
    intro r hr
    obtain ⟨task, htask, hEq⟩ := List.mem_map.mp hr
    have hf := hall task htask
    rw [← hEq]
    cases hS : task.1.search task.2 t with
    | fulfilled v =>
        rw [hS] at hf
        simp only [outcomeFailed] at hf
        simp only [settleTask, hS]
        simpa using hf
    | rejected reason =>
        simp only [settleTask, hS]
  have h0 : ((buildTasks pqs).map (settleTask t c)).filter (fun r => r.success) = [] :=
    filter_eq_nil_of_all_false _ (fun r hr => hres r hr)
  have hsum := length_filter_add_length_filter_not
    ((buildTasks pqs).map (settleTask t c)) (fun r => r.success)
  rw [h0] at hsum
  refine ⟨?_, ?_, ?_⟩
  · show (((buildTasks pqs).map (settleTask t c)).filter (fun r => r.success)).length = 0
    rw [h0]
    rfl
  · show (((buildTasks pqs).map (settleTask t c)).filter (fun r => !r.success)).length
      = ((buildTasks pqs).map (settleTask t c)).length
    simpa using hsum
  · show ((buildTasks pqs).map (settleTask t c)).length = (buildTasks pqs).length
    exact List.length_map _ _

/-- A provider whose search promise always rejects (for the C1 witness). -/
def rejectingProvider : Provider :=
  { name := "Reject", search := fun _ _ => .rejected "boom" }

/-- A provider whose search promise always fulfills with a failed result
(for the C1 witness). -/
def failingProvider : Provider :=
  { name := "Fail"
    search := fun q _ => .fulfilled
      { provider := "Fail", query := q, content := "", sources := []
        success := false, error := some "HTTP 500: err", durationMs := 3 } }

/-- A three-task batch in which every task fails (two by rejection, one by a
fulfilled failure), for the C1 witness. -/
def failingBatch : List (Provider × List String) :=
  [(rejectingProvider, ["q1", "q2"]), (failingProvider, ["q3"])]

/-- C1 witness: the whole-batch-failure theorem applied to a concrete batch
mixing both failure modes. -/
theorem claim1_whole_batch_failure_witness :
    allTasksFail failingBatch 7 = true ∧
    ((conductResearchWith failingBatch 7 1 2).successCount = 0 ∧
     (conductResearchWith failingBatch 7 1 2).failureCount
       = (conductResearchWith failingBatch 7 1 2).results.length ∧
     (conductResearchWith failingBatch 7 1 2).results.length
       = (buildTasks failingBatch).length) :=
  ⟨by decide, claim1_whole_batch_failure failingBatch 7 1 2 (by decide)⟩

/-- C2: for any configuration of P providers with Q queries each, the
orchestrator body returns exactly P*Q results, and the result at flat index
i*Q + j is the settled outcome of provider i's query j — i.e. the result
list is in task-dispatch order (provider-major, query-minor) and no task is
dropped.  Completion order cannot influence this: `Promise.allSettled`
returns its outcomes index-aligned with the dispatched task array, which the
embedding reflects by construction. -/
theorem claim2_dispatch_order :
    ∀ (pqs : List (Provider × List String)) (timeoutMs collectElapsed totalElapsed P Q : Nat),
      pqs.length = P →
      (∀ pq ∈ pqs, pq.2.length = Q) →
      (conductResearchWith pqs timeoutMs collectElapsed totalElapsed).results.length = P * Q ∧
      ∀ (i j : Nat) (pq : Provider × List String) (q : String),
        pqs.get? i = some pq → pq.2.get? j = some q →
        (conductResearchWith pqs timeoutMs collectElapsed totalElapsed).results.get? (i * Q + j)
          = some (settleTask timeoutMs collectElapsed (pq.1, q)) := by
  intro pqs t c e P Q hP hQ
  constructor
  · rw [conductResearchWith_results, List.length_map, buildTasks_length_uniform pqs Q hQ, hP]
  · intro i j pq q hi hj
    rw [conductResearchWith_results, getQ_map, buildTasks_get_uniform pqs Q hQ i j pq q hi hj]
    rfl

/-- A provider fulfilling every query with a distinct successful result
(for the C2 witness). -/
def providerA : Provider :=
  { name := "A"
    search := fun q _ => .fulfilled
      { provider := "A", query := q, content := "content a", sources := []
        success := true, error := none, durationMs := 1 } }

/-- A second successful provider (for the C2 witness). -/
def providerB : Provider :=
  { name := "B"
    search := fun q _ => .fulfilled
      { provider := "B", query := q, content := "content b", sources := []
        success := true, error := none, durationMs := 2 } }

/-- A 2-provider, 2-queries-each batch (for the C2 witness). -/
def orderedBatch : List (Provider × List String) :=
  [(providerA, ["a1", "a2"]), (providerB, ["b1", "b2"])]

/-- C2 witness: the dispatch-order theorem applied to the concrete 2x2
batch, reading off the result at flat index 1*2 + 0 (provider B, query
"b1"). -/
theorem claim2_dispatch_order_witness :
    (conductResearchWith orderedBatch 9 0 0).results.length = 2 * 2 ∧
    (conductResearchWith orderedBatch 9 0 0).results.get? (1 * 2 + 0)
      = some (settleTask 9 0 (providerB, "b1")) := by
  obtain ⟨h1, h2⟩ := claim2_dispatch_order orderedBatch 9 0 0 2 2 rfl (by decide)
  exact ⟨h1, h2 1 0 (providerB, ["b1", "b2"]) "b1" rfl rfl⟩

/-- C4: each concrete provider client's search converts every failure mode —
a thrown error (network failure, timeout abort, malformed response body) or
a non-2xx response — into a ResearchResult with success=false, empty
content, empty sources, and a human-readable error string (the thrown
message, or `HTTP <status>: <body>`).  The search functions are moreover
total Lean functions: no input makes them raise to the caller. -/
theorem claim4_clients_never_raise :
    ∀ (apiKey query : String) (timeoutMs elapsed status : Nat) (message errorText : String),
      PerplexityProvider.search apiKey query timeoutMs (.thrown message) elapsed
        = { provider := "Perplexity", query := query, content := "", sources := []
            success := false, error := some message, durationMs := elapsed } ∧
      PerplexityProvider.search apiKey query timeoutMs (.notOk status errorText) elapsed
        = { provider := "Perplexity", query := query, content := "", sources := []
            success := false, error := some ("HTTP " ++ toString status ++ ": " ++ errorText)
            durationMs := elapsed } ∧
      GrokProvider.search apiKey query timeoutMs (.thrown message) elapsed
        = { provider := "Grok", query := query, content := "", sources := []
            success := false, error := some message, durationMs := elapsed } ∧
      GrokProvider.search apiKey query timeoutMs (.notOk status errorText) elapsed
        = { provider := "Grok", query := query, content := "", sources := []
            success := false, error := some ("HTTP " ++ toString status ++ ": " ++ errorText)
            durationMs := elapsed } ∧
      GeminiProvider.search apiKey query timeoutMs (.thrown message) elapsed
        = { provider := "Gemini", query := query, content := "", sources := []
            success := false, error := some message, durationMs := elapsed } ∧
      GeminiProvider.search apiKey query timeoutMs (.notOk status errorText) elapsed
        = { provider := "Gemini", query := query, content := "", sources := []
            success := false, error := some ("HTTP " ++ toString status ++ ": " ++ errorText)
            durationMs := elapsed } := by
  intro apiKey query timeoutMs elapsed status message errorText
  exact ⟨rfl, rfl, rfl, rfl, rfl, rfl⟩

/-- C5: the allSources list of any aggregated result is exactly the
first-occurrence deduplication of the citation stream taken in dispatch
order: it keeps the first-encountered original (non-normalised) literal of
each trim-plus-lowercase normalisation class, in first-seen order
(`keepFirstByNorm`); consequently its entries have pairwise distinct
normalisations (two strings with equal normalisations collapse to one
entry) and it is a sublist of the stream of original citation strings. -/
theorem claim5_source_dedup :
    ∀ (pqs : List (Provider × List String)) (timeoutMs collectElapsed totalElapsed : Nat),
      let agg := conductResearchWith pqs timeoutMs collectElapsed totalElapsed
      agg.allSources = keepFirstByNorm (sourcesStream agg.results) ∧
      agg.allSources.Pairwise (fun a b => normalise a ≠ normalise b) ∧
      List.Sublist agg.allSources (sourcesStream agg.results) := by
  intro pqs t c e
  have h1 : (conductResearchWith pqs t c e).allSources
      = keepFirstByNorm (sourcesStream (conductResearchWith pqs t c e).results) :=
    collectAllSources_eq_keepFirst _
  refine ⟨h1, ?_, ?_⟩
  · rw [h1]
    exact keepFirst_pairwise _ _ le_rfl
  · rw [h1]
    exact keepFirst_sublist _ _ le_rfl

/-! ## String and substring lemmas -/

theorem strData_append (a b : String) : (a ++ b).data = a.data ++ b.data := rfl

theorem emptyStr_data : ("" : String).data = [] := rfl

theorem spaceStr_data : (" " : String).data = [' '] := rfl

theorem strExt (a b : String) (h : a.data = b.data) : a = b := by
  cases a
  cases b
  exact congrArg String.mk h

theorem strAppend_empty (x : String) : x ++ "" = x :=
  strExt _ _ (by rw [strData_append, emptyStr_data, List.append_nil])

theorem listStartsWith_append (needle b : List Char) :
    listStartsWith needle (needle ++ b) = true := by
  induction needle with
  | nil => rfl
  | cons c cs ih => simp [listStartsWith, ih]

theorem listContainsSeq_nil_needle (hay : List Char) : listContainsSeq [] hay = true := by
  cases hay with
  | nil => rfl
  | cons c rest => simp [listContainsSeq, listStartsWith]

theorem listContainsSeq_here (needle b : List Char) :
    listContainsSeq needle (needle ++ b) = true := by
  cases needle with
  | nil => simpa using listContainsSeq_nil_needle b
  | cons c cs =>
      have h := listStartsWith_append (c :: cs) b
      simp only [List.cons_append] at h
      simp [listContainsSeq, h]

theorem listContainsSeq_middle (a needle b : List Char) :
    listContainsSeq needle (a ++ (needle ++ b)) = true := by
  induction a with
  | nil => simpa using listContainsSeq_here needle b
  | cons x xs ih => simp [listContainsSeq, ih]

theorem containsText_append_tail (x s : String) :
    containsText (x ++ (" " ++ s)) s = true := by
  unfold containsText
  rw [strData_append, strData_append, spaceStr_data]
  have h := listContainsSeq_middle (x.data ++ [' ']) s.data []
  simpa [List.append_assoc] using h

theorem containsText_append_mid (x s y : String) :
    containsText ((x ++ (" " ++ s)) ++ y) s = true := by
  unfold containsText
  rw [strData_append, strData_append, strData_append, spaceStr_data]
  have h := listContainsSeq_middle (x.data ++ [' ']) s.data y.data
  simpa [List.append_assoc] using h

/-- C6: the query generator is deterministic (a pure function of its
inputs), and a trailing legal-entity suffix of the vendor name is stripped
case-insensitively and exactly once before interpolation: on the spec's
example "Acme Corp.", the suffix text "Corp." appears in none of the nine
generated queries while the bare name "Acme" appears in every one; the
stripping also handles a comma-separated suffix and leaves an inner suffix
occurrence alone (applied once). -/
theorem claim6_generator_determinism_and_suffix :
    (∀ (vendorName : String) (servicesUsed : Option String),
        generateQueries vendorName servicesUsed = generateQueries vendorName servicesUsed) ∧
    stripVendorName "Acme Corp." = "Acme" ∧
    stripVendorName "ACME corp." = "ACME" ∧
    stripVendorName "JumpCloud, Inc." = "JumpCloud" ∧
    stripVendorName "Acme Corp. Corp." = "Acme Corp." ∧
    (allQueriesOf (generateQueries "Acme Corp." (some "SaaS Platform"))).all
        (fun q => containsText q "Acme" && !(containsText q "Corp.")) = true :=
  ⟨fun _ _ => rfl, by decide, by decide, by decide, by decide, by decide⟩

/-- C7: when servicesUsed is provided (non-empty, per JavaScript
truthiness), exactly one query per provider — the third slot — incorporates
the services text: the first two slots of each provider are identical to the
services-absent batch, while the third slot of each provider contains the
services text as a substring; when servicesUsed is absent, the third slot
omits the services clause entirely and is the same structurally sound
template string, which coincides with what an empty services string
produces. -/
theorem claim7_services_slot :
    ∀ (vendorName s : String), s.isEmpty = false →
      ((generateQueries vendorName (some s)).perplexity.take 2
          = (generateQueries vendorName none).perplexity.take 2) ∧
      ((generateQueries vendorName (some s)).gemini.take 2
          = (generateQueries vendorName none).gemini.take 2) ∧
      ((generateQueries vendorName (some s)).grok.take 2
          = (generateQueries vendorName none).grok.take 2) ∧
      optContains ((generateQueries vendorName (some s)).perplexity.get? 2) s = true ∧
      optContains ((generateQueries vendorName (some s)).gemini.get? 2) s = true ∧
      optContains ((generateQueries vendorName (some s)).grok.get? 2) s = true ∧
      ((generateQueries vendorName none).perplexity.get? 2
          = some (stripVendorName vendorName
              ++ " GDPR compliance data processing agreement privacy policy")) ∧
      ((generateQueries vendorName none).gemini.get? 2
          = some (stripVendorName vendorName
              ++ " service availability SLA disaster recovery redundancy architecture"
              ++ ". Assess their availability guarantees, redundancy, and disaster recovery capabilities.")) ∧
      ((generateQueries vendorName none).grok.get? 2
          = some (stripVendorName vendorName
              ++ " alternatives comparison security weaknesses limitations"
              ++ ". What are the known security weaknesses or limitations compared to alternatives?")) ∧
      generateQueries vendorName none = generateQueries vendorName (some "") := by
  intro v s h
  have hsc : serviceContextOf (some s) = " " ++ s := by
    simp [serviceContextOf, h]
  refine ⟨rfl, rfl, rfl, ?_, ?_, ?_, ?_, ?_, ?_, rfl⟩
  · rw [show (generateQueries v (some s)).perplexity.get? 2
        = some ((stripVendorName v ++ " GDPR compliance data processing agreement privacy policy")
            ++ serviceContextOf (some s)) from rfl, hsc]
    exact containsText_append_tail _ s
  · rw [show (generateQueries v (some s)).gemini.get? 2
        = some (((stripVendorName v ++ " service availability SLA disaster recovery redundancy architecture")
            ++ serviceContextOf (some s))
            ++ ". Assess their availability guarantees, redundancy, and disaster recovery capabilities.")
        from rfl, hsc]
    exact containsText_append_mid _ s _
  · rw [show (generateQueries v (some s)).grok.get? 2
        = some (((stripVendorName v ++ " alternatives comparison security weaknesses limitations")
            ++ serviceContextOf (some s))
            ++ ". What are the known security weaknesses or limitations compared to alternatives?")
        from rfl, hsc]
    exact containsText_append_mid _ s _
  · rw [show (generateQueries v none).perplexity.get? 2
        = some ((stripVendorName v ++ " GDPR compliance data processing agreement privacy policy")
            ++ serviceContextOf none) from rfl]
    rw [show serviceContextOf none = "" from rfl, strAppend_empty]
  · rw [show (generateQueries v none).gemini.get? 2
        = some (((stripVendorName v ++ " service availability SLA disaster recovery redundancy architecture")
            ++ serviceContextOf none)
            ++ ". Assess their availability guarantees, redundancy, and disaster recovery capabilities.")
        from rfl]
    rw [show serviceContextOf none = "" from rfl, strAppend_empty]
  · rw [show (generateQueries v none).grok.get? 2
        = some (((stripVendorName v ++ " alternatives comparison security weaknesses limitations")
            ++ serviceContextOf none)
            ++ ". What are the known security weaknesses or limitations compared to alternatives?")
        from rfl]
    rw [show serviceContextOf none = "" from rfl, strAppend_empty]

/-- C7 witness: the services-slot theorem applied to the spec's concrete
scenario, reading back that the Perplexity services slot contains the
services text. -/
theorem claim7_services_slot_witness :
    ("SaaS Platform" : String).isEmpty = false ∧
    optContains ((generateQueries "Acme Corp." (some "SaaS Platform")).perplexity.get? 2)
      "SaaS Platform" = true :=
  ⟨by decide, (claim7_services_slot "Acme Corp." "SaaS Platform" (by decide)).2.2.2.1⟩

/-! ## Per-client field lemmas -/

theorem perplexitySearch_fields (apiKey query : String) (timeoutMs : Nat)
    (o : HttpOutcome PerplexityData) (elapsed : Nat) :
    (PerplexityProvider.search apiKey query timeoutMs o elapsed).provider = "Perplexity"
      ∧ (PerplexityProvider.search apiKey query timeoutMs o elapsed).query = query := by
  cases o <;> exact ⟨rfl, rfl⟩

theorem geminiSearch_fields (apiKey query : String) (timeoutMs : Nat)
    (o : HttpOutcome GeminiData) (elapsed : Nat) :
    (GeminiProvider.search apiKey query timeoutMs o elapsed).provider = "Gemini"
      ∧ (GeminiProvider.search apiKey query timeoutMs o elapsed).query = query := by
  cases o <;> exact ⟨rfl, rfl⟩

theorem grokSearch_fields (apiKey query : String) (timeoutMs : Nat)
    (o : HttpOutcome ChatData) (elapsed : Nat) :
    (GrokProvider.search apiKey query timeoutMs o elapsed).provider = "Grok"
      ∧ (GrokProvider.search apiKey query timeoutMs o elapsed).query = query := by
  cases o <;> exact ⟨rfl, rfl⟩

theorem geminiSearch_sources (apiKey query : String) (timeoutMs : Nat)
    (o : HttpOutcome GeminiData) (elapsed : Nat) :
    (GeminiProvider.search apiKey query timeoutMs o elapsed).sources = [] := by
  cases o <;> rfl

theorem grokSearch_sources (apiKey query : String) (timeoutMs : Nat)
    (o : HttpOutcome ChatData) (elapsed : Nat) :
    (GrokProvider.search apiKey query timeoutMs o elapsed).sources = [] := by
  cases o <;> rfl

theorem resultsMatchTasks_map (timeoutMs collectElapsed : Nat) :
    ∀ (tasks : List (Provider × String)),
      (∀ tk ∈ tasks, (settleTask timeoutMs collectElapsed tk).provider = tk.1.name
          ∧ (settleTask timeoutMs collectElapsed tk).query = tk.2) →
      resultsMatchTasks (tasks.map (settleTask timeoutMs collectElapsed)) tasks = true := by
  intro tasks
  induction tasks with
  | nil => intro _; rfl
  | cons tk rest ih =>
      intro h
      obtain ⟨h1, h2⟩ := h tk (List.mem_cons_self _ _)
      simp only [List.map_cons, resultsMatchTasks, h1, h2]
      simp [ih (fun x hx => h x (List.mem_cons_of_mem _ hx))]

theorem concrete_task_fields (net : Network) (config : ResearchConfig)
    (queries : DPSIAQueries) (timeoutMs collectElapsed : Nat) :
    ∀ tk ∈ buildTasks (providersOf net config queries),
      (settleTask timeoutMs collectElapsed tk).provider = tk.1.name
        ∧ (settleTask timeoutMs collectElapsed tk).query = tk.2 := by
  intro tk htk
  obtain ⟨pq, hpq, h1, h2⟩ := mem_buildTasks _ tk htk
  obtain ⟨tp, tq⟩ := tk
  simp only at h1
  simp only [providersOf, List.mem_cons, List.mem_singleton, List.not_mem_nil, or_false]
    at hpq
  rcases hpq with rfl | rfl | rfl
  · subst h1
    exact perplexitySearch_fields config.perplexityApiKey tq timeoutMs
      (net.perplexity tq) (net.perplexityMs tq)
  · subst h1
    exact geminiSearch_fields config.googleApiKey tq timeoutMs
      (net.gemini tq) (net.geminiMs tq)
  · subst h1
    exact grokSearch_fields config.xaiApiKey tq timeoutMs
      (net.grok tq) (net.grokMs tq)

/-- C8: for each result within a provider group, the formatter emits: for a
successful result with non-empty content, the query line, the content and —
when sources are present — a bulleted source list; for a failed result, the
query line and a failure marker carrying the error string; and for a
successful result with empty content, no output at all.  The final conjunct
anchors these per-result sections inside `formatResearchForPrompt` itself. -/
theorem claim8_formatter_sections :
    ∀ (r : ResearchResult),
      (r.success = true → r.content.isEmpty = false →
          resultSections r
            = ["**Query:** " ++ r.query ++ "\n", r.content]
                ++ (if r.sources.length > 0 then
                      "\n**Sources:**" :: r.sources.map (fun src => "- " ++ src)
                    else [])
                ++ [""]) ∧
      (r.success = false →
          resultSections r
            = ["**Query:** " ++ r.query, "*Failed: " ++ optErrString r.error ++ "*\n"]) ∧
      (r.success = true → r.content.isEmpty = true → resultSections r = []) ∧
      (∀ (aggregated : AggregatedResults),
          formatResearchForPrompt aggregated
            = String.intercalate "\n" (providerSections (byProviderOf aggregated.results))) := by
  intro r
  refine ⟨?_, ?_, ?_, fun _ => rfl⟩
  · intro hs hc
    simp [resultSections, hs, hc]
  · intro hs
    simp [resultSections, hs]
  · intro hs hc
    simp [resultSections, hs, hc]

/-- A failed research result (for the C8 witness). -/
def failedResultSample : ResearchResult :=
  { provider := "Perplexity", query := "test", content := "", sources := []
    success := false, error := some "API timeout", durationMs := 5 }

/-- C8 witness: the formatter-sections theorem applied to a concrete failed
result yields the query line and the failure marker. -/
theorem claim8_formatter_sections_witness :
    failedResultSample.success = false ∧
    resultSections failedResultSample
      = ["**Query:** " ++ failedResultSample.query,
         "*Failed: " ++ optErrString failedResultSample.error ++ "*\n"] :=
  ⟨rfl, (claim8_formatter_sections failedResultSample).2.1 rfl⟩

/-- C9: every result of a concrete orchestration run carries, positionally,
the dispatching task's provider name and exact query string — whether the
result came from a provider client (every branch of which stamps its own
name and the query) or was synthesized for a rejected promise. -/
theorem claim9_provider_query_fields :
    ∀ (net : Network) (vendorName : String) (config : ResearchConfig)
      (servicesUsed : Option String) (collectElapsed totalElapsed : Nat),
      resultsMatchTasks
        (conductResearch net vendorName config servicesUsed collectElapsed totalElapsed).results
        (buildTasks (providersOf net config (generateQueries vendorName servicesUsed))) = true := by
  intro net vendorName config servicesUsed collectElapsed totalElapsed
  show resultsMatchTasks
      ((buildTasks (providersOf net config (generateQueries vendorName servicesUsed))).map
        (settleTask (config.timeoutMs.getD 90000) collectElapsed))
      (buildTasks (providersOf net config (generateQueries vendorName servicesUsed))) = true
  exact resultsMatchTasks_map _ _ _
    (concrete_task_fields net config (generateQueries vendorName servicesUsed) _ _)

/-- C10: GeminiProvider.search and GrokProvider.search return an empty
sources list in every branch, success and failure alike; consequently every
entry of allSources in a concrete orchestration run is a citation of some
result whose provider is Perplexity. -/
theorem claim10_sources_only_perplexity :
    (∀ (apiKey query : String) (timeoutMs : Nat) (o : HttpOutcome GeminiData) (elapsed : Nat),
        (GeminiProvider.search apiKey query timeoutMs o elapsed).sources = []) ∧
    (∀ (apiKey query : String) (timeoutMs : Nat) (o : HttpOutcome ChatData) (elapsed : Nat),
        (GrokProvider.search apiKey query timeoutMs o elapsed).sources = []) ∧
    ∀ (net : Network) (vendorName : String) (config : ResearchConfig)
      (servicesUsed : Option String) (collectElapsed totalElapsed : Nat),
      (conductResearch net vendorName config servicesUsed collectElapsed totalElapsed).allSources.all
        (fun s =>
          (conductResearch net vendorName config servicesUsed collectElapsed
              totalElapsed).results.any
            (fun r => r.provider == "Perplexity" && r.sources.any (fun u => u == s))) = true := by
  refine ⟨geminiSearch_sources, grokSearch_sources, ?_⟩
  intro net vendorName config servicesUsed collectElapsed totalElapsed
  apply List.all_eq_true.mpr
  intro s hs
  have hs2 : s ∈ collectAllSources
      ((buildTasks (providersOf net config (generateQueries vendorName servicesUsed))).map
        (settleTask (config.timeoutMs.getD 90000) collectElapsed)) := hs
  rw [collectAllSources_eq_keepFirst] at hs2
  have hs3 := (keepFirst_sublist _ _ le_rfl).subset hs2
  obtain ⟨r, hrR, hsrc⟩ := mem_sourcesStream _ hs3
  have hdisj : r.provider = "Perplexity" ∨ r.sources = [] := by
    obtain ⟨tk, htk, hEq⟩ := List.mem_map.mp hrR
    obtain ⟨pq, hpq, h1, h2⟩ := mem_buildTasks _ tk htk
    obtain ⟨tp, tq⟩ := tk
    simp only at h1
    simp only [providersOf, List.mem_cons, List.mem_singleton, List.not_mem_nil, or_false]
      at hpq
    rcases hpq with rfl | rfl | rfl
    · subst h1
      rw [← hEq]
      exact Or.inl (perplexitySearch_fields config.perplexityApiKey tq
        (config.timeoutMs.getD 90000) (net.perplexity tq) (net.perplexityMs tq)).1
    · subst h1
      rw [← hEq]
      exact Or.inr (geminiSearch_sources config.googleApiKey tq
        (config.timeoutMs.getD 90000) (net.gemini tq) (net.geminiMs tq))
    · subst h1
      rw [← hEq]
      exact Or.inr (grokSearch_sources config.xaiApiKey tq
        (config.timeoutMs.getD 90000) (net.grok tq) (net.grokMs tq))
  cases hdisj with
  | inl hp =>
      apply List.any_eq_true.mpr
      refine ⟨r, hrR, ?_⟩
      simp only [hp, beq_self_eq_true, Bool.true_and]
      apply List.any_eq_true.mpr
      exact ⟨s, hsrc, by simp⟩
  | inr hempty =>
      rw [hempty] at hsrc
      simp at hsrc
